import Mathlib

/-!
Shallow embedding of the celvet schema linter.

The embedding covers the two analysis passes of the linter over Kubernetes
structural schemas:

* the bound-completeness checker (`CheckMaxLimits` in limits.go), which
  reports lists, maps and strings lacking a declared maximum size, and
* the expression-cost checker (`CheckExprCost` in cost.go), which scales the
  external compiler's per-rule base cost by the cardinality bound
  propagated from ancestor `maxItems` / `maxProperties` limits and reports
  rules whose scaled cost exceeds the fixed budget.

Go `uint64` values are modelled as `Nat` together with the explicit bound
`maxUint = 2 ^ 64 - 1`; the guarded multiply takes the machine wrap-around
into account via an explicit `% (maxUint + 1)`.  Go `nil` pointers become
`Option`.  The Go map `Properties` is modelled as an association list whose
order stands for the iteration order of one run.  The external expression
compiler `schemacel.Compile` is an opaque collaborator and is passed in as a
function argument (`compile`).
-/

/-- Mirror of `structuralschema.ValueValidation` restricted to the fields the
linter reads: the three optional size bounds (Go `*int64`). -/
structure ValueValidation where
  maxItems : Option Int
  maxProperties : Option Int
  maxLength : Option Int
deriving DecidableEq, Repr

/-- Mirror of `structuralschema.Structural` restricted to the fields the
linter reads.  `additionalProperties` models the Go `*StructuralOrBool`
field: the outer `Option` is the pointer to the `StructuralOrBool` wrapper,
the inner `Option` its possibly-nil `Structural` pointer.  `properties`
models the Go map `map[string]Structural`, which carries no order of its
own and whose `range` iteration order is unspecified and may change between
runs: the list order below is only the iteration order of one particular
run, so two lists that are permutations of each other represent the same Go
value. -/
inductive Structural where
  | mk (type : String)
       (items : Option Structural)
       (properties : List (String × Structural))
       (additionalProperties : Option (Option Structural))
       (valueValidation : Option ValueValidation)

/-- The schema node kind string (`Generic.Type`). -/
def Structural.type : Structural → String
  | .mk t _ _ _ _ => t

/-- The array item schema (`Items`). -/
def Structural.items : Structural → Option Structural
  | .mk _ i _ _ _ => i

/-- The named properties (`Properties`), as an association list. -/
def Structural.properties : Structural → List (String × Structural)
  | .mk _ _ p _ _ => p

/-- The `AdditionalProperties` field. -/
def Structural.additionalProperties : Structural → Option (Option Structural)
  | .mk _ _ _ a _ => a

/-- The `ValueValidation` field. -/
def Structural.valueValidation : Structural → Option ValueValidation
  | .mk _ _ _ _ v => v

/-- One segment of a `field.Path` from k8s apimachinery: `Child` appends a
named segment, `Key` appends a map-key segment, `Index` a list index. -/
inductive PathSeg where
  | child (name : String)
  | key (k : String)
  | idx (i : Nat)
deriving DecidableEq, Repr

/-- A `field.Path` value, as its segment sequence. -/
abbrev FieldPath := List PathSeg

/-- Mirror of `field.Path.Child`. -/
def FieldPath.child (p : FieldPath) (n : String) : FieldPath :=
  p ++ [PathSeg.child n]

/-- Mirror of `field.Path.Key`. -/
def FieldPath.key (p : FieldPath) (k : String) : FieldPath :=
  p ++ [PathSeg.key k]

/-- Mirror of `field.Path.Index`. -/
def FieldPath.idx (p : FieldPath) (i : Nat) : FieldPath :=
  p ++ [PathSeg.idx i]

/-- Mirror of celvet's `SchemaType` enum used by `LimitError`. -/
inductive SchemaType where
  | list
  | map
  | string
deriving DecidableEq, Repr

/-- Mirror of celvet's `LimitError`: a list, map or string that lacks a
user-set limit, addressed by its path. -/
structure LimitError where
  path : FieldPath
  type : SchemaType
deriving DecidableEq, Repr

/-- Mirror of `schemacel.CompilationResult` restricted to the fields the
linter reads: the worst-case cost estimate `MaxCost`, the compiler's own
cardinality estimate `MaxCardinality` (both Go `uint64`), and the per-rule
compilation error `Error` (modelled as its message string). -/
structure CompilationResult where
  maxCost : Nat
  maxCardinality : Nat
  err : Option String
deriving DecidableEq, Repr

/-- Mirror of celvet's `CostError`: an expression whose estimated cost is
beyond the per-expression limit, addressed by its path. -/
structure CostError where
  path : FieldPath
  cost : Nat
deriving DecidableEq, Repr

/-- Largest `uint64` value, Go's `math.MaxUint` on a 64-bit platform. -/
def maxUint : Nat := 2 ^ 64 - 1

/-- The fixed global cost budget, `validation.StaticEstimatedCostLimit` from
the k8s apiextensions validation package (an external constant consumed by
the linter). -/
def staticEstimatedCostLimit : Nat := 10000000

/-- Mirror of celvet's `zeroIfNegative`. -/
def zeroIfNegative (v : Int) : Int :=
  if v < 0 then 0 else v

/-- Mirror of celvet's `multiplyWithOverflowGuard`: the product of `baseCost`
and `cardinality` unless that product would exceed `math.MaxUint`, in which
case `math.MaxUint` is returned.  The final branch keeps the machine
semantics of the Go `uint64` multiply explicit via the modulus. -/
def multiplyWithOverflowGuard (baseCost cardinality : Nat) : Nat :=
  if baseCost = 0 then 0
  else if maxUint / baseCost < cardinality then maxUint
  else baseCost * cardinality % (maxUint + 1)

/-- Mirror of celvet's `costInfo`: the cardinality bound for the current
schema implied by ancestor limits; `none` models the Go `nil` pointer
(`unbounded`). -/
structure costInfo where
  maxCardinality : Option Nat
deriving DecidableEq, Repr

/-- Mirror of celvet's `extractMaxElements`: the factor by which the schema
increases the cardinality of its children (`none` = unbounded).  The Go
conversion `uint64(zeroIfNegative(v))` is `Int.toNat` after the clamp. -/
def extractMaxElements (s : Structural) : Option Nat :=
  match s.type with
  | "object" =>
    match s.additionalProperties with
    | some _ =>
      match s.valueValidation with
      | some v =>
        match v.maxProperties with
        | some m => some (zeroIfNegative m).toNat
        | none => none
      | none => none
    | none => some 1
  | "array" =>
    match s.valueValidation with
    | some v =>
      match v.maxItems with
      | some m => some (zeroIfNegative m).toNat
      | none => none
    | none => none
  | _ => some 1

/-- Mirror of celvet's `costInfo.MultiplyByElementCost`: multiply the
incoming cardinality bound by the schema's own fan-out factor; a `nil`
schema, an unbounded incoming bound or an unbounded factor all give an
unbounded result. -/
def MultiplyByElementCost (c : costInfo) (schema : Option Structural) : costInfo :=
  match schema with
  | none => ⟨none⟩
  | some s =>
    match c.maxCardinality with
    | none => ⟨none⟩
    | some card =>
      match extractMaxElements s with
      | none => ⟨none⟩
      | some maxElements => ⟨some (multiplyWithOverflowGuard card maxElements)⟩

/-- Mirror of celvet's `getExpressionCost`: scale the rule's base cost by the
structural cardinality bound when one exists, otherwise by the compiler's own
cardinality estimate. -/
def getExpressionCost (cr : CompilationResult) (cardinalityCost : costInfo) : Nat :=
  match cardinalityCost.maxCardinality with
  | some card => multiplyWithOverflowGuard cr.maxCost card
  | none => multiplyWithOverflowGuard cr.maxCost cr.maxCardinality

/-- Mirror of celvet's `rootCostInfo`: the root document exists exactly once. -/
def rootCostInfo : costInfo := ⟨some 1⟩

mutual

/-- Mirror of celvet's `checkMaxLimits` (limits.go): depth-first collection
of missing-limit findings.  The recursion into `Items` is guarded on the
`Option` because the linter only receives well-formed structural schemas, in
which an `array` node always carries an item schema. -/
def checkMaxLimits : Structural → FieldPath → List LimitError
  | Structural.mk ty items props addl vv, path =>
    match ty with
    | "array" =>
      (match vv with
       | none => [⟨path, SchemaType.list⟩]
       | some v => if v.maxItems = none then [⟨path, SchemaType.list⟩] else [])
      ++ (match items with
          | some si => checkMaxLimits si (path.child "<items>")
          | none => [])
    | "string" =>
      (match vv with
       | none => [⟨path, SchemaType.string⟩]
       | some v => if v.maxLength = none then [⟨path, SchemaType.string⟩] else [])
    | "object" =>
      (match addl with
       | some (some sa) =>
         ((match vv with
           | none => [⟨path, SchemaType.map⟩]
           | some v => if v.maxProperties = none then [⟨path, SchemaType.map⟩] else [])
          ++ checkMaxLimits sa path)
       | _ => [])
      ++ checkMaxLimitsProps props path
    | _ => []

/-- The `for propName, propSchema := range schema.Properties` loop of
`checkMaxLimits`, walking the association list in its order. -/
def checkMaxLimitsProps : List (String × Structural) → FieldPath → List LimitError
  | [], _ => []
  | (n, ps) :: rest, path =>
    checkMaxLimits ps (path.child n) ++ checkMaxLimitsProps rest path

end

/-- Mirror of celvet's exported `CheckMaxLimits` entry point, which starts at
path `openAPIV3Schema`. -/
def CheckMaxLimits (schema : Structural) : List LimitError :=
  checkMaxLimits schema [PathSeg.child "openAPIV3Schema"]

/-- Modelled from the spec: for an `array` node whose `Items` pointer is nil
the Go code hands the nil pointer to the external `schemacel.Compile`, which
is not part of this repository; per the spec a missing child schema simply
contributes no additional findings and is not an error condition for the
cost checker. -/
def checkExprCostMissingChild : List CostError × List String :=
  ([], [])

/-- The per-node rule findings of `checkExprCost`: one `CostError` for every
compilation result whose scaled cost exceeds the budget, at path
`path.x-kubernetes-validations[index].rule`. -/
def ruleFindings (results : List CompilationResult) (path : FieldPath)
    (info : costInfo) : List CostError :=
  results.enum.filterMap (fun x =>
    if getExpressionCost x.2 info > staticEstimatedCostLimit then
      some ⟨((path.child "x-kubernetes-validations").idx x.1).child "rule",
            getExpressionCost x.2 info⟩
    else none)

/-- The per-node compile failures of `checkExprCost`: the `Error` of every
failed compilation result, in rule order; the Go wrapping
`fmt.Errorf("%w", result.Error)` keeps the error value as is. -/
def ruleCompileFailures (results : List CompilationResult) : List String :=
  results.filterMap (fun r => r.err)

mutual

/-- Mirror of celvet's `checkExprCost` (cost.go): compile the rules of each
node through the external `compile` collaborator, report each rule whose
cost as scaled by `getExpressionCost` exceeds the budget and accumulate
per-rule compile failures, then recurse into the children with the
cardinality bound produced by `MultiplyByElementCost`. -/
def checkExprCost (compile : Structural → Except String (List CompilationResult))
    (s : Structural) (path : FieldPath) (nodeCostInfo : costInfo) :
    List CostError × List String :=
  checkExprCostWith compile (compile s) s path nodeCostInfo

/-- Body of `checkExprCost` once the node-level compile call has returned: a
failure of that call produces the error alone and skips the subtree; a
success contributes the node's own rule findings and per-rule compile
failures, then the children in `switch schema.Type` order. -/
def checkExprCostWith (compile : Structural → Except String (List CompilationResult)) :
    Except String (List CompilationResult) → Structural → FieldPath → costInfo →
    List CostError × List String
  | .error e, _, _, _ => ([], [e])
  | .ok results, Structural.mk ty items props addl vv, path, nodeCostInfo =>
    let own : List CostError × List String :=
      (ruleFindings results path nodeCostInfo, ruleCompileFailures results)
    let kids : List CostError × List String :=
      match ty with
      | "array" =>
        match items with
        | some si =>
          checkExprCost compile si (path.child "items")
            (MultiplyByElementCost nodeCostInfo
              (some (Structural.mk ty items props addl vv)))
        | none => checkExprCostMissingChild
      | "object" =>
        let rp := checkExprCostProps compile props path
          (MultiplyByElementCost nodeCostInfo
            (some (Structural.mk ty items props addl vv)))
        let ra : List CostError × List String :=
          match addl with
          | some (some sa) =>
            checkExprCost compile sa (path.child "additionalProperties")
              (MultiplyByElementCost nodeCostInfo
                (some (Structural.mk ty items props addl vv)))
          | _ => ([], [])
        (rp.1 ++ ra.1, rp.2 ++ ra.2)
      | _ => ([], [])
    (own.1 ++ kids.1, own.2 ++ kids.2)

/-- The `for propName, propSchema := range schema.Properties` loop of
`checkExprCost`, walking the association list in its order; `childInfo` is
the `nodeCostInfo.MultiplyByElementCost(schema)` value of the enclosing
node, which the Go loop recomputes identically for every property. -/
def checkExprCostProps (compile : Structural → Except String (List CompilationResult)) :
    List (String × Structural) → FieldPath → costInfo → List CostError × List String
  | [], _, _ => ([], [])
  | (n, ps) :: rest, path, childInfo =>
    let r := checkExprCost compile ps ((path.child "properties").key n) childInfo
    let rr := checkExprCostProps compile rest path childInfo
    (r.1 ++ rr.1, r.2 ++ rr.2)

end

/-- The children part of `checkExprCost` at a node, split out so that
theorems can speak about the continuation of the traversal; it repeats the
dispatch of the `switch schema.Type` statement verbatim. -/
def checkExprCostKids (compile : Structural → Except String (List CompilationResult))
    (s : Structural) (path : FieldPath) (nodeCostInfo : costInfo) :
    List CostError × List String :=
  match s with
  | Structural.mk ty items props addl _vv =>
    match ty with
    | "array" =>
      match items with
      | some si =>
        checkExprCost compile si (path.child "items")
          (MultiplyByElementCost nodeCostInfo (some s))
      | none => checkExprCostMissingChild
    | "object" =>
      let rp := checkExprCostProps compile props path
        (MultiplyByElementCost nodeCostInfo (some s))
      let ra : List CostError × List String :=
        match addl with
        | some (some sa) =>
          checkExprCost compile sa (path.child "additionalProperties")
            (MultiplyByElementCost nodeCostInfo (some s))
        | _ => ([], [])
      (rp.1 ++ ra.1, rp.2 ++ ra.2)
    | _ => ([], [])

/-- Mirror of celvet's exported `CheckExprCost` entry point, which starts at
path `spec.validation.openAPIV3Schema` with root cardinality 1. -/
def CheckExprCost (compile : Structural → Except String (List CompilationResult))
    (schema : Structural) : List CostError × List String :=
  checkExprCost compile schema
    [PathSeg.child "spec", PathSeg.child "validation", PathSeg.child "openAPIV3Schema"]
    rootCostInfo

/-- Nested structural induction for `Structural`: to prove a property of
every node it suffices to prove it for a node from the property at its item
schema, its property schemas and its map value schema. -/
def Structural.inductionOn {P : Structural → Prop}
    (h : ∀ (ty : String) (items : Option Structural)
           (props : List (String × Structural))
           (addl : Option (Option Structural)) (vv : Option ValueValidation),
           (∀ si, items = some si → P si) →
           (∀ q, q ∈ props → P q.2) →
           (∀ sa, addl = some (some sa) → P sa) →
           P (Structural.mk ty items props addl vv)) :
    ∀ s, P s
  | Structural.mk ty items props addl vv =>
    h ty items props addl vv
      (fun si hsi => Structural.inductionOn h si)
      (fun q hq => Structural.inductionOn h q.2)
      (fun sa hsa => Structural.inductionOn h sa)
termination_by s => sizeOf s
decreasing_by
  · subst hsi; simp_arith
  · have := List.sizeOf_lt_of_mem hq
    obtain ⟨n, s2⟩ := q
    simp_arith at this ⊢
    omega
  · subst hsa; simp_arith

/-- The node-local test of `checkMaxLimits`: the kind of missing-limit
finding a node produces for itself, if any. -/
def limitViolation (s : Structural) : Option SchemaType :=
  match s.type with
  | "array" =>
    match s.valueValidation with
    | none => some SchemaType.list
    | some v => if v.maxItems = none then some SchemaType.list else none
  | "string" =>
    match s.valueValidation with
    | none => some SchemaType.string
    | some v => if v.maxLength = none then some SchemaType.string else none
  | "object" =>
    match s.additionalProperties with
    | some (some _) =>
      match s.valueValidation with
      | none => some SchemaType.map
      | some v => if v.maxProperties = none then some SchemaType.map else none
    | _ => none
  | _ => none

/-- The findings a node contributes for itself in `checkMaxLimits`. -/
def ownBoundFindings (s : Structural) (p : FieldPath) : List LimitError :=
  match limitViolation s with
  | some k => [⟨p, k⟩]
  | none => []

mutual

/-- The node occurrences `checkMaxLimits` visits, in visiting order, each
paired with the path at which it is visited: the node itself first, then for
an array the item subtree at `path.<items>`, and for an object the
`additionalProperties` subtree at the unchanged path followed by the
property subtrees at `path.name` in list order. -/
def boundOccs : Structural → FieldPath → List (Structural × FieldPath)
  | Structural.mk ty items props addl vv, path =>
    (Structural.mk ty items props addl vv, path) ::
      (match ty with
       | "array" =>
         match items with
         | some si => boundOccs si (path.child "<items>")
         | none => []
       | "object" =>
         (match addl with
          | some (some sa) => boundOccs sa path
          | _ => [])
         ++ boundOccsProps props path
       | _ => [])

/-- Property-list walker for `boundOccs`. -/
def boundOccsProps : List (String × Structural) → FieldPath → List (Structural × FieldPath)
  | [], _ => []
  | (n, ps) :: rest, path =>
    boundOccs ps (path.child n) ++ boundOccsProps rest path

end

/-- The findings one visited occurrence contributes in `checkMaxLimits`. -/
def boundFinding (t : Structural × FieldPath) : List LimitError :=
  ownBoundFindings t.1 t.2

mutual

/-- The node occurrences `checkExprCost` visits, in visiting order, each
paired with the path and the propagated cardinality bound with which it is
visited.  A node whose node-level compile call fails contributes no child
occurrences, mirroring the early return of `checkExprCost`. -/
def costOccs (compile : Structural → Except String (List CompilationResult))
    (s : Structural) (path : FieldPath) (info : costInfo) :
    List (Structural × FieldPath × costInfo) :=
  (s, path, info) :: costOccsKids compile (compile s) s path info

/-- Child occurrences of one node of `costOccs`, given the result of the
node-level compile call. -/
def costOccsKids (compile : Structural → Except String (List CompilationResult)) :
    Except String (List CompilationResult) → Structural → FieldPath → costInfo →
    List (Structural × FieldPath × costInfo)
  | .error _, _, _, _ => []
  | .ok _, Structural.mk ty items props addl vv, path, info =>
    match ty with
    | "array" =>
      match items with
      | some si =>
        costOccs compile si (path.child "items")
          (MultiplyByElementCost info (some (Structural.mk ty items props addl vv)))
      | none => []
    | "object" =>
      costOccsProps compile props path
        (MultiplyByElementCost info (some (Structural.mk ty items props addl vv)))
      ++ (match addl with
          | some (some sa) =>
            costOccs compile sa (path.child "additionalProperties")
              (MultiplyByElementCost info (some (Structural.mk ty items props addl vv)))
          | _ => [])
    | _ => []

/-- Property-list walker for `costOccs`. -/
def costOccsProps (compile : Structural → Except String (List CompilationResult)) :
    List (String × Structural) → FieldPath → costInfo →
    List (Structural × FieldPath × costInfo)
  | [], _, _ => []
  | (n, ps) :: rest, path, childInfo =>
    costOccs compile ps ((path.child "properties").key n) childInfo
    ++ costOccsProps compile rest path childInfo

end

/-- The `(cost findings, compile failures)` contribution of one visited
occurrence in `checkExprCost`. -/
def nodeCostContrib (compile : Structural → Except String (List CompilationResult))
    (t : Structural × FieldPath × costInfo) : List CostError × List String :=
  match compile t.1 with
  | .error e => ([], [e])
  | .ok results => (ruleFindings results t.2.1 t.2.2, ruleCompileFailures results)

/-- Unfolding equation of `checkMaxLimits` at an `array` node. -/
lemma checkMaxLimits_array (items : Option Structural)
    (props : List (String × Structural)) (addl : Option (Option Structural))
    (vv : Option ValueValidation) (p : FieldPath) :
    checkMaxLimits (Structural.mk "array" items props addl vv) p
      = ownBoundFindings (Structural.mk "array" items props addl vv) p
        ++ (match items with
            | some si => checkMaxLimits si (p.child "<items>")
            | none => []) := by
  rw [checkMaxLimits.eq_def]
  unfold ownBoundFindings limitViolation
  simp only [Structural.type, Structural.valueValidation]
  cases vv with
  | none => rfl
  | some v => by_cases hmi : v.maxItems = none <;> simp [hmi]

/-- Unfolding equation of `checkMaxLimits` at a `string` node. -/
lemma checkMaxLimits_string (items : Option Structural)
    (props : List (String × Structural)) (addl : Option (Option Structural))
    (vv : Option ValueValidation) (p : FieldPath) :
    checkMaxLimits (Structural.mk "string" items props addl vv) p
      = ownBoundFindings (Structural.mk "string" items props addl vv) p := by
  rw [checkMaxLimits.eq_def]
  unfold ownBoundFindings limitViolation
  simp only [Structural.type, Structural.valueValidation]
  cases vv with
  | none => rfl
  | some v => by_cases hml : v.maxLength = none <;> simp [hml]

/-- Unfolding equation of `checkMaxLimits` at an `object` node: the node's
own finding first, then the `additionalProperties` subtree at the unchanged
path, then the properties in list order. -/
lemma checkMaxLimits_object (items : Option Structural)
    (props : List (String × Structural)) (addl : Option (Option Structural))
    (vv : Option ValueValidation) (p : FieldPath) :
    checkMaxLimits (Structural.mk "object" items props addl vv) p
      = ownBoundFindings (Structural.mk "object" items props addl vv) p
        ++ ((match addl with
             | some (some sa) => checkMaxLimits sa p
             | _ => [])
            ++ checkMaxLimitsProps props p) := by
  rw [checkMaxLimits.eq_def]
  unfold ownBoundFindings limitViolation
  simp only [Structural.type, Structural.valueValidation, Structural.additionalProperties]
  rcases addl with _ | ⟨_ | sa⟩
  · simp
  · simp
  · cases vv with
    | none => simp
    | some v => by_cases hmp : v.maxProperties = none <;> simp [hmp]

/-- Unfolding equation of `checkMaxLimits` at a leaf or unrecognized kind. -/
lemma checkMaxLimits_other (ty : String) (items : Option Structural)
    (props : List (String × Structural)) (addl : Option (Option Structural))
    (vv : Option ValueValidation) (p : FieldPath)
    (h1 : ty ≠ "array") (h2 : ty ≠ "string") (h3 : ty ≠ "object") :
    checkMaxLimits (Structural.mk ty items props addl vv) p = [] := by
  rw [checkMaxLimits.eq_def]
  split <;> simp_all

/-- A leaf or unrecognized kind never violates the node-local test. -/
lemma limitViolation_other (ty : String) (items : Option Structural)
    (props : List (String × Structural)) (addl : Option (Option Structural))
    (vv : Option ValueValidation)
    (h1 : ty ≠ "array") (h2 : ty ≠ "string") (h3 : ty ≠ "object") :
    limitViolation (Structural.mk ty items props addl vv) = none := by
  unfold limitViolation
  simp only [Structural.type]

/-- Unfolding equation of `boundOccs` at an `array` node. -/
lemma boundOccs_array (items : Option Structural)
    (props : List (String × Structural)) (addl : Option (Option Structural))
    (vv : Option ValueValidation) (p : FieldPath) :
    boundOccs (Structural.mk "array" items props addl vv) p
      = (Structural.mk "array" items props addl vv, p)
        :: (match items with
            | some si => boundOccs si (p.child "<items>")
            | none => []) := by
  rw [boundOccs.eq_def]
  rfl

/-- Unfolding equation of `boundOccs` at a `string` node. -/
lemma boundOccs_string (items : Option Structural)
    (props : List (String × Structural)) (addl : Option (Option Structural))
    (vv : Option ValueValidation) (p : FieldPath) :
    boundOccs (Structural.mk "string" items props addl vv) p
      = [(Structural.mk "string" items props addl vv, p)] := by
  rw [boundOccs.eq_def]
  rfl

/-- Unfolding equation of `boundOccs` at an `object` node. -/
lemma boundOccs_object (items : Option Structural)
    (props : List (String × Structural)) (addl : Option (Option Structural))
    (vv : Option ValueValidation) (p : FieldPath) :
    boundOccs (Structural.mk "object" items props addl vv) p
      = (Structural.mk "object" items props addl vv, p)
        :: ((match addl with
             | some (some sa) => boundOccs sa p
             | _ => [])
            ++ boundOccsProps props p) := by
  rw [boundOccs.eq_def]
  rfl

/-- Unfolding equation of `boundOccs` at a leaf or unrecognized kind. -/
lemma boundOccs_other (ty : String) (items : Option Structural)
    (props : List (String × Structural)) (addl : Option (Option Structural))
    (vv : Option ValueValidation) (p : FieldPath)
    (h1 : ty ≠ "array") (h2 : ty ≠ "string") (h3 : ty ≠ "object") :
    boundOccs (Structural.mk ty items props addl vv) p
      = [(Structural.mk ty items props addl vv, p)] := by
  rw [boundOccs.eq_def]
  simp [h1, h2, h3]

lemma checkMaxLimitsProps_congr (l : List (String × Structural))
    (h : ∀ q ∈ l, ∀ p, checkMaxLimits q.2 p = (boundOccs q.2 p).flatMap boundFinding) :
    ∀ p, checkMaxLimitsProps l p = (boundOccsProps l p).flatMap boundFinding := by
  induction l with
  | nil => intro p; simp [checkMaxLimitsProps, boundOccsProps]
  | cons q rest ih =>
    intro p
    obtain ⟨n, ps⟩ := q
    have h1 := h (n, ps) (by simp) (p.child n)
    have h2 := ih (fun q hq p2 => h q (by simp [hq]) p2) p
    simp [checkMaxLimitsProps, boundOccsProps, h1, h2]

/-- Characterization of the bound completeness checker: its output is
exactly the findings of the visited node occurrences, each contributing one
finding (at its visiting path, with the node-local kind) when it violates
the node-local test and none otherwise, in visiting order. -/
lemma checkMaxLimits_eq_occs (s : Structural) :
    ∀ p, checkMaxLimits s p = (boundOccs s p).flatMap boundFinding := by
  induction s using Structural.inductionOn with
  | h ty items props addl vv ihi ihp iha =>
    intro p
    have hprops := checkMaxLimitsProps_congr props ihp
    by_cases ha : ty = "array"
    · subst ha
      have hchild :
          (match items with
           | some si => checkMaxLimits si (p.child "<items>")
           | none => [])
            = (match items with
               | some si => boundOccs si (p.child "<items>")
               | none => ([] : List (Structural × FieldPath))).flatMap boundFinding := by
        cases items with
        | none => rfl
        | some si => simpa using ihi si rfl (p.child "<items>")
      rw [checkMaxLimits_array, boundOccs_array, List.flatMap_cons, hchild]
      rfl
    by_cases hs : ty = "string"
    · subst hs
      rw [checkMaxLimits_string, boundOccs_string]
      simp [boundFinding]
    by_cases ho : ty = "object"
    · subst ho
      have hchild :
          (match addl with
           | some (some sa) => checkMaxLimits sa p
           | _ => [])
            = (match addl with
               | some (some sa) => boundOccs sa p
               | _ => ([] : List (Structural × FieldPath))).flatMap boundFinding := by
        rcases addl with _ | ⟨_ | sa⟩
        · rfl
        · rfl
        · simpa using iha sa rfl p
      rw [checkMaxLimits_object, boundOccs_object, List.flatMap_cons,
        List.flatMap_append, hchild, hprops p]
      rfl
    rw [checkMaxLimits_other ty items props addl vv p ha hs ho,
      boundOccs_other ty items props addl vv p ha hs ho]
    simp [boundFinding, ownBoundFindings,
      limitViolation_other ty items props addl vv ha hs ho]

/-- The property walker of `checkMaxLimits` visits the property subtrees in
list order. -/
lemma checkMaxLimitsProps_eq_flatMap (l : List (String × Structural)) (p : FieldPath) :
    checkMaxLimitsProps l p = l.flatMap (fun q => checkMaxLimits q.2 (p.child q.1)) := by
  induction l with
  | nil => simp [checkMaxLimitsProps]
  | cons q rest ih => obtain ⟨n, ps⟩ := q; simp [checkMaxLimitsProps, ih]

/-- Unfolding equation of `checkExprCost` when the node-level compile call
fails: the error is returned alone and the subtree is skipped. -/
lemma checkExprCost_error (compile : Structural → Except String (List CompilationResult))
    (ty : String) (items : Option Structural) (props : List (String × Structural))
    (addl : Option (Option Structural)) (vv : Option ValueValidation)
    (p : FieldPath) (i : costInfo) (e : String)
    (h : compile (Structural.mk ty items props addl vv) = .error e) :
    checkExprCost compile (Structural.mk ty items props addl vv) p i = ([], [e]) := by
  unfold checkExprCost
  rw [h]
  rw [checkExprCostWith.eq_def]

/-- Unfolding equation of `checkExprCost` when the node-level compile call
succeeds: the node's own rule findings and per-rule compile failures come
first, followed by the contributions of the children. -/
lemma checkExprCost_ok (compile : Structural → Except String (List CompilationResult))
    (ty : String) (items : Option Structural) (props : List (String × Structural))
    (addl : Option (Option Structural)) (vv : Option ValueValidation)
    (p : FieldPath) (i : costInfo) (results : List CompilationResult)
    (h : compile (Structural.mk ty items props addl vv) = .ok results) :
    checkExprCost compile (Structural.mk ty items props addl vv) p i
      = (ruleFindings results p i
           ++ (checkExprCostKids compile (Structural.mk ty items props addl vv) p i).1,
         ruleCompileFailures results
           ++ (checkExprCostKids compile (Structural.mk ty items props addl vv) p i).2) := by
  unfold checkExprCost
  rw [h]
  rw [checkExprCostWith.eq_def]
  rfl

/-- Children dispatch of the cost checker at an `array` node. -/
lemma checkExprCostKids_array (compile : Structural → Except String (List CompilationResult))
    (items : Option Structural) (props : List (String × Structural))
    (addl : Option (Option Structural)) (vv : Option ValueValidation)
    (p : FieldPath) (i : costInfo) :
    checkExprCostKids compile (Structural.mk "array" items props addl vv) p i
      = (match items with
         | some si =>
           checkExprCost compile si (p.child "items")
             (MultiplyByElementCost i (some (Structural.mk "array" items props addl vv)))
         | none => checkExprCostMissingChild) := rfl

/-- Children dispatch of the cost checker at an `object` node: the property
subtrees in list order, then the `additionalProperties` subtree at
`path.additionalProperties`. -/
lemma checkExprCostKids_object (compile : Structural → Except String (List CompilationResult))
    (items : Option Structural) (props : List (String × Structural))
    (addl : Option (Option Structural)) (vv : Option ValueValidation)
    (p : FieldPath) (i : costInfo) :
    checkExprCostKids compile (Structural.mk "object" items props addl vv) p i
      = ((checkExprCostProps compile props p
            (MultiplyByElementCost i (some (Structural.mk "object" items props addl vv)))).1
         ++ (match addl with
             | some (some sa) =>
               checkExprCost compile sa (p.child "additionalProperties")
                 (MultiplyByElementCost i (some (Structural.mk "object" items props addl vv)))
             | _ => ([], [])).1,
         (checkExprCostProps compile props p
            (MultiplyByElementCost i (some (Structural.mk "object" items props addl vv)))).2
         ++ (match addl with
             | some (some sa) =>
               checkExprCost compile sa (p.child "additionalProperties")
                 (MultiplyByElementCost i (some (Structural.mk "object" items props addl vv)))
             | _ => ([], [])).2) := rfl

/-- Children dispatch of the cost checker at a leaf or unrecognized kind. -/
lemma checkExprCostKids_other (compile : Structural → Except String (List CompilationResult))
    (ty : String) (items : Option Structural) (props : List (String × Structural))
    (addl : Option (Option Structural)) (vv : Option ValueValidation)
    (p : FieldPath) (i : costInfo)
    (h1 : ty ≠ "array") (h2 : ty ≠ "object") :
    checkExprCostKids compile (Structural.mk ty items props addl vv) p i = ([], []) := by
  unfold checkExprCostKids
  simp [h1, h2]

/-- Unfolding equation of `costOccs` when the node-level compile call fails. -/
lemma costOccs_error (compile : Structural → Except String (List CompilationResult))
    (ty : String) (items : Option Structural) (props : List (String × Structural))
    (addl : Option (Option Structural)) (vv : Option ValueValidation)
    (p : FieldPath) (i : costInfo) (e : String)
    (h : compile (Structural.mk ty items props addl vv) = .error e) :
    costOccs compile (Structural.mk ty items props addl vv) p i
      = [(Structural.mk ty items props addl vv, p, i)] := by
  rw [costOccs.eq_def]
  rw [h]
  rw [costOccsKids.eq_def]

/-- Unfolding equation of `costOccs` at an `array` node with an item schema
whose compile call succeeds. -/
lemma costOccs_ok_array_some (compile : Structural → Except String (List CompilationResult))
    (si : Structural) (props : List (String × Structural))
    (addl : Option (Option Structural)) (vv : Option ValueValidation)
    (p : FieldPath) (i : costInfo) (results : List CompilationResult)
    (h : compile (Structural.mk "array" (some si) props addl vv) = .ok results) :
    costOccs compile (Structural.mk "array" (some si) props addl vv) p i
      = (Structural.mk "array" (some si) props addl vv, p, i)
        :: costOccs compile si (p.child "items")
             (MultiplyByElementCost i
               (some (Structural.mk "array" (some si) props addl vv))) := by
  rw [costOccs.eq_def, h, costOccsKids.eq_def]
  rfl

/-- Unfolding equation of `costOccs` at an `array` node without an item
schema whose compile call succeeds. -/
lemma costOccs_ok_array_none (compile : Structural → Except String (List CompilationResult))
    (props : List (String × Structural))
    (addl : Option (Option Structural)) (vv : Option ValueValidation)
    (p : FieldPath) (i : costInfo) (results : List CompilationResult)
    (h : compile (Structural.mk "array" none props addl vv) = .ok results) :
    costOccs compile (Structural.mk "array" none props addl vv) p i
      = [(Structural.mk "array" none props addl vv, p, i)] := by
  rw [costOccs.eq_def, h, costOccsKids.eq_def]
  rfl

/-- Unfolding equation of `costOccs` at an open-map `object` node whose
compile call succeeds. -/
lemma costOccs_ok_object_addl (compile : Structural → Except String (List CompilationResult))
    (items : Option Structural) (props : List (String × Structural))
    (sa : Structural) (vv : Option ValueValidation)
    (p : FieldPath) (i : costInfo) (results : List CompilationResult)
    (h : compile (Structural.mk "object" items props (some (some sa)) vv) = .ok results) :
    costOccs compile (Structural.mk "object" items props (some (some sa)) vv) p i
      = (Structural.mk "object" items props (some (some sa)) vv, p, i)
        :: (costOccsProps compile props p
              (MultiplyByElementCost i
                (some (Structural.mk "object" items props (some (some sa)) vv)))
            ++ costOccs compile sa (p.child "additionalProperties")
                 (MultiplyByElementCost i
                   (some (Structural.mk "object" items props (some (some sa)) vv)))) := by
  rw [costOccs.eq_def, h, costOccsKids.eq_def]
  rfl

/-- Unfolding equation of `costOccs` at an `object` node with no
`additionalProperties` whose compile call succeeds. -/
lemma costOccs_ok_object_noAddl (compile : Structural → Except String (List CompilationResult))
    (items : Option Structural) (props : List (String × Structural))
    (vv : Option ValueValidation)
    (p : FieldPath) (i : costInfo) (results : List CompilationResult)
    (h : compile (Structural.mk "object" items props none vv) = .ok results) :
    costOccs compile (Structural.mk "object" items props none vv) p i
      = (Structural.mk "object" items props none vv, p, i)
        :: (costOccsProps compile props p
              (MultiplyByElementCost i
                (some (Structural.mk "object" items props none vv)))
            ++ []) := by
  rw [costOccs.eq_def, h, costOccsKids.eq_def]
  rfl

/-- Unfolding equation of `costOccs` at an `object` node whose
`additionalProperties` wrapper carries no schema, when the compile call
succeeds. -/
lemma costOccs_ok_object_addlNil (compile : Structural → Except String (List CompilationResult))
    (items : Option Structural) (props : List (String × Structural))
    (vv : Option ValueValidation)
    (p : FieldPath) (i : costInfo) (results : List CompilationResult)
    (h : compile (Structural.mk "object" items props (some none) vv) = .ok results) :
    costOccs compile (Structural.mk "object" items props (some none) vv) p i
      = (Structural.mk "object" items props (some none) vv, p, i)
        :: (costOccsProps compile props p
              (MultiplyByElementCost i
                (some (Structural.mk "object" items props (some none) vv)))
            ++ []) := by
  rw [costOccs.eq_def, h, costOccsKids.eq_def]
  rfl

/-- Unfolding equation of `costOccs` at a leaf or unrecognized kind whose
compile call succeeds. -/
lemma costOccs_ok_other (compile : Structural → Except String (List CompilationResult))
    (ty : String) (items : Option Structural) (props : List (String × Structural))
    (addl : Option (Option Structural)) (vv : Option ValueValidation)
    (p : FieldPath) (i : costInfo) (results : List CompilationResult)
    (h : compile (Structural.mk ty items props addl vv) = .ok results)
    (h1 : ty ≠ "array") (h2 : ty ≠ "object") :
    costOccs compile (Structural.mk ty items props addl vv) p i
      = [(Structural.mk ty items props addl vv, p, i)] := by
  rw [costOccs.eq_def]
  rw [h]
  rw [costOccsKids.eq_def]
  congr 1
  simp [h1, h2]

lemma checkExprCostProps_congr (compile : Structural → Except String (List CompilationResult))
    (l : List (String × Structural))
    (h : ∀ q ∈ l, ∀ p i, checkExprCost compile q.2 p i
           = ((costOccs compile q.2 p i).flatMap (fun t => (nodeCostContrib compile t).1),
              (costOccs compile q.2 p i).flatMap (fun t => (nodeCostContrib compile t).2))) :
    ∀ p i, checkExprCostProps compile l p i
      = ((costOccsProps compile l p i).flatMap (fun t => (nodeCostContrib compile t).1),
         (costOccsProps compile l p i).flatMap (fun t => (nodeCostContrib compile t).2)) := by
  induction l with
  | nil => intro p i; simp [checkExprCostProps, costOccsProps]
  | cons q rest ih =>
    intro p i
    obtain ⟨n, ps⟩ := q
    have h1 := h (n, ps) (by simp) ((p.child "properties").key n) i
    have h2 := ih (fun q hq p2 i2 => h q (by simp [hq]) p2 i2) p i
    simp [checkExprCostProps, costOccsProps, h1, h2]

/-- The property walker of `costOccs` visits the property subtrees in list
order. -/
lemma costOccsProps_eq_flatMap (compile : Structural → Except String (List CompilationResult))
    (l : List (String × Structural)) (p : FieldPath) (i : costInfo) :
    costOccsProps compile l p i
      = l.flatMap (fun q => costOccs compile q.2 ((p.child "properties").key q.1) i) := by
  induction l with
  | nil => simp [costOccsProps]
  | cons q rest ih => obtain ⟨n, ps⟩ := q; simp [costOccsProps, ih]

/-- Characterization of the expression cost checker: its cost findings and
its compile failures are exactly the per-node contributions of the visited
occurrences, in visiting order, where each occurrence contributes through
`nodeCostContrib` at its visiting path and propagated cardinality bound. -/
lemma checkExprCost_eq_occs (compile : Structural → Except String (List CompilationResult))
    (s : Structural) : ∀ p i,
    checkExprCost compile s p i
      = ((costOccs compile s p i).flatMap (fun t => (nodeCostContrib compile t).1),
         (costOccs compile s p i).flatMap (fun t => (nodeCostContrib compile t).2)) := by
  induction s using Structural.inductionOn with
  | h ty items props addl vv ihi ihp iha =>
    intro p i
    cases hc : compile (Structural.mk ty items props addl vv) with
    | error e =>
      rw [checkExprCost_error compile ty items props addl vv p i e hc,
        costOccs_error compile ty items props addl vv p i e hc]
      simp [nodeCostContrib, hc]
    | ok results =>
      have hnode :
          nodeCostContrib compile (Structural.mk ty items props addl vv, p, i)
            = (ruleFindings results p i, ruleCompileFailures results) := by
        simp [nodeCostContrib, hc]
      rw [checkExprCost_ok compile ty items props addl vv p i results hc]
      by_cases ha : ty = "array"
      · subst ha
        cases items with
        | none =>
          rw [costOccs_ok_array_none compile props addl vv p i results hc,
            checkExprCostKids_array]
          simp [hnode, checkExprCostMissingChild]
        | some si =>
          rw [costOccs_ok_array_some compile si props addl vv p i results hc,
            checkExprCostKids_array]
          have hsi := ihi si rfl (p.child "items")
            (MultiplyByElementCost i (some (Structural.mk "array" (some si) props addl vv)))
          simp [hnode, hsi]
      by_cases ho : ty = "object"
      · subst ho
        have hpropsEq := checkExprCostProps_congr compile props (fun q hq => ihp q hq)
        rw [checkExprCostKids_object]
        rcases addl with _ | ⟨_ | sa⟩
        · rw [costOccs_ok_object_noAddl compile items props vv p i results hc]
          simp [hnode, hpropsEq]
        · rw [costOccs_ok_object_addlNil compile items props vv p i results hc]
          simp [hnode, hpropsEq]
        · rw [costOccs_ok_object_addl compile items props sa vv p i results hc]
          have hsa := iha sa rfl (p.child "additionalProperties")
            (MultiplyByElementCost i
              (some (Structural.mk "object" items props (some (some sa)) vv)))
          simp [hnode, hpropsEq, hsa]
      rw [costOccs_ok_other compile ty items props addl vv p i results hc ha ho,
        checkExprCostKids_other compile ty items props addl vv p i ha ho]
      simp [hnode]

/-- An unbounded incoming cardinality bound is absorbing in
`MultiplyByElementCost`, whatever the schema argument. -/
lemma MultiplyByElementCost_absorb_left (c : costInfo) (h : c.maxCardinality = none)
    (os : Option Structural) : MultiplyByElementCost c os = ⟨none⟩ := by
  obtain ⟨mc⟩ := c
  simp only [costInfo.maxCardinality] at h
  subst h
  cases os <;> simp [MultiplyByElementCost]

/-- An unbounded fan-out factor makes `MultiplyByElementCost` unbounded,
whatever the incoming bound. -/
lemma MultiplyByElementCost_absorb_factor (c : costInfo) (s : Structural)
    (h : extractMaxElements s = none) : MultiplyByElementCost c (some s) = ⟨none⟩ := by
  obtain ⟨mc⟩ := c
  cases mc <;> simp [MultiplyByElementCost, h]

/-- Unboundedness is absorbing along the cost traversal: if a node is
visited with an unbounded cardinality bound, every occurrence of its subtree
is visited with an unbounded bound. -/
lemma costOccs_sticky (compile : Structural → Except String (List CompilationResult))
    (s : Structural) : ∀ p i, i.maxCardinality = none →
    ∀ t ∈ costOccs compile s p i, t.2.2.maxCardinality = none := by
  induction s using Structural.inductionOn with
  | h ty items props addl vv ihi ihp iha =>
    intro p i hi t ht
    cases hc : compile (Structural.mk ty items props addl vv) with
    | error e =>
      rw [costOccs_error compile ty items props addl vv p i e hc] at ht
      simp at ht
      simp [ht, hi]
    | ok results =>
      have habs : MultiplyByElementCost i (some (Structural.mk ty items props addl vv)) = ⟨none⟩ :=
        MultiplyByElementCost_absorb_left i hi _
      by_cases ha : ty = "array"
      · subst ha
        cases items with
        | none =>
          rw [costOccs_ok_array_none compile props addl vv p i results hc] at ht
          simp at ht
          simp [ht, hi]
        | some si =>
          rw [costOccs_ok_array_some compile si props addl vv p i results hc, habs] at ht
          simp at ht
          rcases ht with ht | ht
          · simp [ht, hi]
          · exact ihi si rfl (p.child "items") ⟨none⟩ rfl t ht
      by_cases ho : ty = "object"
      · subst ho
        rcases addl with _ | ⟨_ | sa⟩
        · rw [costOccs_ok_object_noAddl compile items props vv p i results hc, habs,
            costOccsProps_eq_flatMap] at ht
          simp at ht
          rcases ht with ht | ⟨a, b, hab, ht⟩
          · simp [ht, hi]
          · exact ihp (a, b) hab _ ⟨none⟩ rfl t ht
        · rw [costOccs_ok_object_addlNil compile items props vv p i results hc, habs,
            costOccsProps_eq_flatMap] at ht
          simp at ht
          rcases ht with ht | ⟨a, b, hab, ht⟩
          · simp [ht, hi]
          · exact ihp (a, b) hab _ ⟨none⟩ rfl t ht
        · rw [costOccs_ok_object_addl compile items props sa vv p i results hc, habs,
            costOccsProps_eq_flatMap] at ht
          simp at ht
          rcases ht with ht | ⟨a, b, hab, ht⟩ | ht
          · simp [ht, hi]
          · exact ihp (a, b) hab _ ⟨none⟩ rfl t ht
          · exact iha sa rfl (p.child "additionalProperties") ⟨none⟩ rfl t ht
      rw [costOccs_ok_other compile ty items props addl vv p i results hc ha ho] at ht
      simp at ht
      simp [ht, hi]

/-- An unbounded fan-out factor at a node makes every strict descendant
occurrence of the cost traversal unbounded. -/
lemma costOccs_tail_sticky (compile : Structural → Except String (List CompilationResult))
    (ty : String) (items : Option Structural) (props : List (String × Structural))
    (addl : Option (Option Structural)) (vv : Option ValueValidation)
    (p : FieldPath) (i : costInfo)
    (hfac : extractMaxElements (Structural.mk ty items props addl vv) = none) :
    ∀ t ∈ (costOccs compile (Structural.mk ty items props addl vv) p i).tail,
      t.2.2.maxCardinality = none := by
  intro t ht
  have habs : MultiplyByElementCost i (some (Structural.mk ty items props addl vv)) = ⟨none⟩ :=
    MultiplyByElementCost_absorb_factor i _ hfac
  cases hc : compile (Structural.mk ty items props addl vv) with
  | error e =>
    rw [costOccs_error compile ty items props addl vv p i e hc] at ht
    simp at ht
  | ok results =>
    by_cases ha : ty = "array"
    · subst ha
      cases items with
      | none =>
        rw [costOccs_ok_array_none compile props addl vv p i results hc] at ht
        simp at ht
      | some si =>
        rw [costOccs_ok_array_some compile si props addl vv p i results hc, habs] at ht
        simp only [List.tail_cons] at ht
        exact costOccs_sticky compile si (p.child "items") ⟨none⟩ rfl t ht
    by_cases ho : ty = "object"
    · subst ho
      rcases addl with _ | ⟨_ | sa⟩
      · rw [costOccs_ok_object_noAddl compile items props vv p i results hc, habs,
          costOccsProps_eq_flatMap] at ht
        simp only [List.tail_cons, List.append_nil] at ht
        obtain ⟨q, hq, ht⟩ := List.mem_flatMap.mp ht
        exact costOccs_sticky compile q.2 _ ⟨none⟩ rfl t ht
      · rw [costOccs_ok_object_addlNil compile items props vv p i results hc, habs,
          costOccsProps_eq_flatMap] at ht
        simp only [List.tail_cons, List.append_nil] at ht
        obtain ⟨q, hq, ht⟩ := List.mem_flatMap.mp ht
        exact costOccs_sticky compile q.2 _ ⟨none⟩ rfl t ht
      · rw [costOccs_ok_object_addl compile items props sa vv p i results hc, habs,
          costOccsProps_eq_flatMap] at ht
        simp only [List.tail_cons] at ht
        rcases List.mem_append.mp ht with ht | ht
        · obtain ⟨q, hq, ht⟩ := List.mem_flatMap.mp ht
          exact costOccs_sticky compile q.2 _ ⟨none⟩ rfl t ht
        · exact costOccs_sticky compile sa _ ⟨none⟩ rfl t ht
    rw [costOccs_ok_other compile ty items props addl vv p i results hc ha ho] at ht
    simp at ht

/-- The children part of `checkMaxLimits` at a node, split out so that
theorems can speak about the order of the traversal. -/
def childBoundFindings (s : Structural) (p : FieldPath) : List LimitError :=
  match s.type with
  | "array" =>
    match s.items with
    | some si => checkMaxLimits si (p.child "<items>")
    | none => []
  | "object" =>
    (match s.additionalProperties with
     | some (some sa) => checkMaxLimits sa p
     | _ => [])
    ++ checkMaxLimitsProps s.properties p
  | _ => []

/-- C3: the overflow-guarded multiply of the cost checker maps a zero base
cost to zero for every cardinality, never exceeds the maximum representable
`uint64` value, and agrees with the true product whenever that product fits
in the representable range. -/
theorem claim_C3 (a b : Nat) :
    multiplyWithOverflowGuard 0 b = 0
    ∧ multiplyWithOverflowGuard a b ≤ maxUint
    ∧ (a * b ≤ maxUint → multiplyWithOverflowGuard a b = a * b) := by
  refine ⟨by simp [multiplyWithOverflowGuard], ?_, ?_⟩
  · unfold multiplyWithOverflowGuard
    split
    · exact Nat.zero_le _
    split
    · exact Nat.le_refl _
    · have hm : a * b % (maxUint + 1) < maxUint + 1 :=
        Nat.mod_lt _ (Nat.succ_pos _)
      omega
  · intro hab
    unfold multiplyWithOverflowGuard
    split
    · rename_i ha
      simp [ha]
    split
    · rename_i ha hlt
      exfalso
      have hb : b ≤ maxUint / a :=
        (Nat.le_div_iff_mul_le (Nat.pos_of_ne_zero ha)).mpr
          (by rwa [Nat.mul_comm])
      omega
    · exact Nat.mod_eq_of_lt (by omega)

/-- C3 witness: concrete evaluations of the guarded multiply obtained from
`claim_C3`. -/
theorem claim_C3_witness :
    multiplyWithOverflowGuard 0 5 = 0 ∧ multiplyWithOverflowGuard 6 7 = 6 * 7 :=
  ⟨(claim_C3 0 5).1, (claim_C3 6 7).2.2 (by decide)⟩

/-- C2: the fan-out factor of a node is `maxItems` for an array when
declared (and non-negative, as the data model requires) and unbounded
otherwise; `maxProperties` for an object with `additionalProperties` set
when declared and unbounded otherwise; exactly 1 for an object without
`additionalProperties`; and exactly 1 for every other kind, recognized or
not. -/
theorem claim_C2 (ty : String) (items : Option Structural)
    (props : List (String × Structural)) (addl : Option (Option Structural))
    (vv : Option ValueValidation) :
    (ty = "array" → ∀ m : Int, vv.bind ValueValidation.maxItems = some m → 0 ≤ m →
        extractMaxElements (Structural.mk ty items props addl vv) = some m.toNat)
    ∧ (ty = "array" → vv.bind ValueValidation.maxItems = none →
        extractMaxElements (Structural.mk ty items props addl vv) = none)
    ∧ (ty = "object" → addl ≠ none →
        ∀ m : Int, vv.bind ValueValidation.maxProperties = some m → 0 ≤ m →
        extractMaxElements (Structural.mk ty items props addl vv) = some m.toNat)
    ∧ (ty = "object" → addl ≠ none → vv.bind ValueValidation.maxProperties = none →
        extractMaxElements (Structural.mk ty items props addl vv) = none)
    ∧ (ty = "object" → addl = none →
        extractMaxElements (Structural.mk ty items props addl vv) = some 1)
    ∧ (ty ≠ "object" → ty ≠ "array" →
        extractMaxElements (Structural.mk ty items props addl vv) = some 1) := by
  refine ⟨?_, ?_, ?_, ?_, ?_, ?_⟩
  · intro hty m hm hm0
    subst hty
    cases vv with
    | none => simp at hm
    | some v =>
      simp only [Option.some_bind] at hm
      have hnn : ¬ m < 0 := not_lt.mpr hm0
      unfold extractMaxElements
      simp [Structural.type, Structural.valueValidation, hm, zeroIfNegative, hnn]
  · intro hty hm
    subst hty
    unfold extractMaxElements
    cases vv with
    | none => simp [Structural.type, Structural.valueValidation]
    | some v =>
      simp only [Option.some_bind] at hm
      simp [Structural.type, Structural.valueValidation, hm]
  · intro hty haddl m hm hm0
    subst hty
    obtain ⟨a, rfl⟩ := Option.ne_none_iff_exists.mp haddl
    cases vv with
    | none => simp at hm
    | some v =>
      simp only [Option.some_bind] at hm
      have hnn : ¬ m < 0 := not_lt.mpr hm0
      unfold extractMaxElements
      simp [Structural.type, Structural.valueValidation, Structural.additionalProperties,
        hm, zeroIfNegative, hnn]
  · intro hty haddl hm
    subst hty
    obtain ⟨a, rfl⟩ := Option.ne_none_iff_exists.mp haddl
    unfold extractMaxElements
    cases vv with
    | none => simp [Structural.type, Structural.valueValidation, Structural.additionalProperties]
    | some v =>
      simp only [Option.some_bind] at hm
      simp [Structural.type, Structural.valueValidation, Structural.additionalProperties, hm]
  · intro hty haddl
    subst hty
    subst haddl
    unfold extractMaxElements
    simp [Structural.type, Structural.additionalProperties]
  · intro h1 h2
    unfold extractMaxElements
    simp [Structural.type, h1, h2]

/-- C2 witness: concrete factor extractions obtained from `claim_C2`. -/
theorem claim_C2_witness :
    extractMaxElements (Structural.mk "array" none [] none (some ⟨some 5, none, none⟩))
      = some (Int.toNat 5)
    ∧ extractMaxElements (Structural.mk "array" none [] none none) = none
    ∧ extractMaxElements (Structural.mk "object" none [] (some none)
        (some ⟨none, some 7, none⟩)) = some (Int.toNat 7)
    ∧ extractMaxElements (Structural.mk "object" none [] none none) = some 1
    ∧ extractMaxElements (Structural.mk "boolean" none [] none none) = some 1 :=
  ⟨(claim_C2 "array" none [] none (some ⟨some 5, none, none⟩)).1 rfl 5 rfl (by decide),
   (claim_C2 "array" none [] none none).2.1 rfl rfl,
   (claim_C2 "object" none [] (some none) (some ⟨none, some 7, none⟩)).2.2.1 rfl
     (by simp) 7 rfl (by decide),
   (claim_C2 "object" none [] none none).2.2.2.2.1 rfl rfl,
   (claim_C2 "boolean" none [] none none).2.2.2.2.2 (by decide) (by decide)⟩

/-- C4: unboundedness is absorbing in cardinality propagation — a node
visited with an unbounded bound passes an unbounded bound to its whole
subtree; an unbounded fan-out factor makes every strict descendant
unbounded; a rule checked under an unbounded bound is costed as the guarded
product of its base cost and the compiler's own cardinality estimate; and
the cost checker's output is exactly the per-occurrence contributions of the
traversal that propagates these bounds. -/
theorem claim_C4 (compile : Structural → Except String (List CompilationResult))
    (s : Structural) (p : FieldPath) (i : costInfo) :
    (i.maxCardinality = none →
       ∀ t ∈ costOccs compile s p i, t.2.2.maxCardinality = none)
    ∧ (extractMaxElements s = none →
       ∀ t ∈ (costOccs compile s p i).tail, t.2.2.maxCardinality = none)
    ∧ (∀ cr : CompilationResult, ∀ j : costInfo, j.maxCardinality = none →
       getExpressionCost cr j = multiplyWithOverflowGuard cr.maxCost cr.maxCardinality)
    ∧ checkExprCost compile s p i
        = ((costOccs compile s p i).flatMap (fun t => (nodeCostContrib compile t).1),
           (costOccs compile s p i).flatMap (fun t => (nodeCostContrib compile t).2)) := by
  refine ⟨fun hi => costOccs_sticky compile s p i hi, ?_, ?_,
    checkExprCost_eq_occs compile s p i⟩
  · cases s with
    | mk ty items props addl vv =>
      exact fun hf => costOccs_tail_sticky compile ty items props addl vv p i hf
  · intro cr j hj
    obtain ⟨mc⟩ := j
    simp only [costInfo.maxCardinality] at hj
    subst hj
    simp [getExpressionCost]

/-- A string leaf schema with no bounds, used to instantiate theorems. -/
def exLeafStr : Structural := Structural.mk "string" none [] none none

/-- An array schema without `maxItems` over a string leaf, used to
instantiate theorems. -/
def exUnboundedArray : Structural := Structural.mk "array" (some exLeafStr) [] none none

/-- A compile oracle that reports no rules anywhere. -/
def exCompileNil : Structural → Except String (List CompilationResult) :=
  fun _ => .ok []

/-- C4 witness: under the unbounded array `exUnboundedArray` the item leaf
is visited with an unbounded bound, and an unbounded bound makes the rule
cost fall back to the compiler's own cardinality estimate; both are
instances of `claim_C4`. -/
theorem claim_C4_witness :
    (exLeafStr, FieldPath.child ([] : FieldPath) "items", (⟨none⟩ : costInfo)).2.2.maxCardinality = none
    ∧ getExpressionCost ⟨7, 3, none⟩ ⟨none⟩ = multiplyWithOverflowGuard 7 3 := by
  constructor
  · have hmem : (exLeafStr, FieldPath.child ([] : FieldPath) "items", (⟨none⟩ : costInfo))
        ∈ (costOccs exCompileNil exUnboundedArray [] ⟨some 1⟩).tail := by
      rw [show exUnboundedArray = Structural.mk "array" (some exLeafStr) [] none none from rfl,
        costOccs_ok_array_some exCompileNil exLeafStr [] none none [] ⟨some 1⟩ [] rfl]
      simp only [List.tail_cons]
      rw [show exLeafStr = Structural.mk "string" none [] none none from rfl,
        costOccs_ok_other exCompileNil "string" none [] none none _ _ []
          rfl (by decide) (by decide)]
      exact List.mem_singleton.mpr rfl
    exact (claim_C4 exCompileNil exUnboundedArray [] ⟨some 1⟩).2.1 rfl _ hmem
  · exact (claim_C4 exCompileNil exUnboundedArray [] ⟨some 1⟩).2.2.1 ⟨7, 3, none⟩ ⟨none⟩ rfl

/-- C5: the bound completeness checker emits, for each visited node
occurrence, exactly one finding at that occurrence's path — tagged list,
map or string — precisely when the node is an array lacking `maxItems`, a
string lacking `maxLength`, or an open map lacking `maxProperties`, and no
finding for that node otherwise; this holds at every nesting depth since
the characterization covers the whole visited-occurrence list. -/
theorem claim_C5 :
    (∀ s p, checkMaxLimits s p
        = (boundOccs s p).flatMap (fun t =>
            match limitViolation t.1 with
            | some k => [⟨t.2, k⟩]
            | none => []))
    ∧ (∀ t : Structural,
        (t.type = "array" →
          (limitViolation t = some SchemaType.list ↔
            t.valueValidation.bind ValueValidation.maxItems = none))
        ∧ (t.type = "string" →
          (limitViolation t = some SchemaType.string ↔
            t.valueValidation.bind ValueValidation.maxLength = none))
        ∧ (∀ sa, t.type = "object" → t.additionalProperties = some (some sa) →
          (limitViolation t = some SchemaType.map ↔
            t.valueValidation.bind ValueValidation.maxProperties = none))) := by
  constructor
  · intro s p
    rw [checkMaxLimits_eq_occs s p]
    rfl
  · intro t
    obtain ⟨ty, items, props, addl, vv⟩ := t
    refine ⟨?_, ?_, ?_⟩
    · intro hty
      simp only [Structural.type] at hty
      subst hty
      unfold limitViolation
      simp only [Structural.type, Structural.valueValidation]
      cases vv with
      | none => simp
      | some v => by_cases hmi : v.maxItems = none <;> simp [hmi]
    · intro hty
      simp only [Structural.type] at hty
      subst hty
      unfold limitViolation
      simp only [Structural.type, Structural.valueValidation]
      cases vv with
      | none => simp
      | some v => by_cases hml : v.maxLength = none <;> simp [hml]
    · intro sa hty haddl
      simp only [Structural.type] at hty
      subst hty
      simp only [Structural.additionalProperties] at haddl
      subst haddl
      unfold limitViolation
      simp only [Structural.type, Structural.valueValidation, Structural.additionalProperties]
      cases vv with
      | none => simp
      | some v => by_cases hmp : v.maxProperties = none <;> simp [hmp]

/-- C5 witness: a string leaf with no `maxLength` violates the node-local
test, while an array carrying `maxItems` does not; both derived from
`claim_C5`. -/
theorem claim_C5_witness :
    limitViolation (Structural.mk "string" none [] none none) = some SchemaType.string
    ∧ limitViolation (Structural.mk "array" none [] none (some ⟨some 3, none, none⟩))
        ≠ some SchemaType.list := by
  constructor
  · exact ((claim_C5.2 (Structural.mk "string" none [] none none)).2.1 rfl).mpr rfl
  · intro hcontra
    have hbind :=
      ((claim_C5.2 (Structural.mk "array" none [] none (some ⟨some 3, none, none⟩))).1
        rfl).mp hcontra
    simp [Structural.valueValidation] at hbind

/-- Two association-list images of the same Go properties map with entries
`a` and `b` (both unbounded strings): the Go map is unordered, so each list
is the iteration order of one possible run. -/
def exPropsObjA : Structural :=
  Structural.mk "object" none [("a", exLeafStr), ("b", exLeafStr)] none none

/-- The second iteration order of the map represented by `exPropsObjA`. -/
def exPropsObjB : Structural :=
  Structural.mk "object" none [("b", exLeafStr), ("a", exLeafStr)] none none

lemma checkExprCostProps_fst (compile : Structural → Except String (List CompilationResult))
    (l : List (String × Structural)) (p : FieldPath) (ci : costInfo) :
    (checkExprCostProps compile l p ci).1
      = l.flatMap (fun q =>
          (checkExprCost compile q.2 ((p.child "properties").key q.1) ci).1) := by
  induction l with
  | nil => simp [checkExprCostProps]
  | cons q rest ih => obtain ⟨n, ps⟩ := q; simp [checkExprCostProps, ih]

lemma checkExprCostProps_snd (compile : Structural → Except String (List CompilationResult))
    (l : List (String × Structural)) (p : FieldPath) (ci : costInfo) :
    (checkExprCostProps compile l p ci).2
      = l.flatMap (fun q =>
          (checkExprCost compile q.2 ((p.child "properties").key q.1) ci).2) := by
  induction l with
  | nil => simp [checkExprCostProps]
  | cons q rest ih => obtain ⟨n, ps⟩ := q; simp [checkExprCostProps, ih]

/-- Reordering a node's properties list — choosing another iteration order
for the same Go map — permutes the bound checker's findings: the multiset
of findings is an invariant of the Go value, the sequence order is not. -/
lemma checkMaxLimits_propsPerm (ty : String) (items : Option Structural)
    (props props2 : List (String × Structural)) (addl : Option (Option Structural))
    (vv : Option ValueValidation) (p : FieldPath)
    (hperm : props.Perm props2) :
    (checkMaxLimits (Structural.mk ty items props addl vv) p).Perm
      (checkMaxLimits (Structural.mk ty items props2 addl vv) p) := by
  by_cases ha : ty = "array"
  · subst ha
    rw [checkMaxLimits_array, checkMaxLimits_array]
    exact List.Perm.refl _
  by_cases hs : ty = "string"
  · subst hs
    rw [checkMaxLimits_string, checkMaxLimits_string]
    exact List.Perm.refl _
  by_cases ho : ty = "object"
  · subst ho
    rw [checkMaxLimits_object, checkMaxLimits_object,
      checkMaxLimitsProps_eq_flatMap, checkMaxLimitsProps_eq_flatMap]
    exact List.Perm.append_left _ (List.Perm.append_left _ (hperm.flatMap_right _))
  · rw [checkMaxLimits_other ty items props addl vv p ha hs ho,
      checkMaxLimits_other ty items props2 addl vv p ha hs ho]

/-- Reordering a node's properties list permutes both outputs of the cost
checker, provided the external compiler answers the two representations of
the node identically (they are the same Go value). -/
lemma checkExprCost_propsPerm (compile : Structural → Except String (List CompilationResult))
    (ty : String) (items : Option Structural)
    (props props2 : List (String × Structural)) (addl : Option (Option Structural))
    (vv : Option ValueValidation) (p : FieldPath) (i : costInfo)
    (hperm : props.Perm props2)
    (hc : compile (Structural.mk ty items props addl vv)
            = compile (Structural.mk ty items props2 addl vv)) :
    ((checkExprCost compile (Structural.mk ty items props addl vv) p i).1).Perm
        ((checkExprCost compile (Structural.mk ty items props2 addl vv) p i).1)
    ∧ ((checkExprCost compile (Structural.mk ty items props addl vv) p i).2).Perm
        ((checkExprCost compile (Structural.mk ty items props2 addl vv) p i).2) := by
  cases hres : compile (Structural.mk ty items props addl vv) with
  | error e =>
    have hres2 : compile (Structural.mk ty items props2 addl vv) = .error e := by
      rw [← hc]; exact hres
    rw [checkExprCost_error compile ty items props addl vv p i e hres,
      checkExprCost_error compile ty items props2 addl vv p i e hres2]
    exact ⟨List.Perm.refl _, List.Perm.refl _⟩
  | ok results =>
    have hres2 : compile (Structural.mk ty items props2 addl vv) = .ok results := by
      rw [← hc]; exact hres
    rw [checkExprCost_ok compile ty items props addl vv p i results hres,
      checkExprCost_ok compile ty items props2 addl vv p i results hres2]
    by_cases ha : ty = "array"
    · subst ha
      rw [checkExprCostKids_array, checkExprCostKids_array]
      exact ⟨List.Perm.refl _, List.Perm.refl _⟩
    by_cases ho : ty = "object"
    · subst ho
      rw [checkExprCostKids_object, checkExprCostKids_object]
      constructor
      · refine List.Perm.append_left _ ?_
        rw [checkExprCostProps_fst, checkExprCostProps_fst]
        exact List.Perm.append_right _ (hperm.flatMap_right _)
      · refine List.Perm.append_left _ ?_
        rw [checkExprCostProps_snd, checkExprCostProps_snd]
        exact List.Perm.append_right _ (hperm.flatMap_right _)
    · rw [checkExprCostKids_other compile ty items props addl vv p i ha ho,
        checkExprCostKids_other compile ty items props2 addl vv p i ha ho]
      exact ⟨List.Perm.refl _, List.Perm.refl _⟩

/-- C7 counterexample: the two iteration orders of one and the same Go
properties map (entries `a` and `b`) make `checkMaxLimits` return the same
two findings in two different sequences — the program attaches no
declaration order to sibling properties, so no fixed sibling order is a
property of the code. -/
theorem claim_C7_counterexample :
    exPropsObjA.properties.Perm exPropsObjB.properties
    ∧ checkMaxLimits exPropsObjA []
        = [⟨[PathSeg.child "a"], SchemaType.string⟩,
           ⟨[PathSeg.child "b"], SchemaType.string⟩]
    ∧ checkMaxLimits exPropsObjB []
        = [⟨[PathSeg.child "b"], SchemaType.string⟩,
           ⟨[PathSeg.child "a"], SchemaType.string⟩]
    ∧ checkMaxLimits exPropsObjA [] ≠ checkMaxLimits exPropsObjB [] := by
  have hA : checkMaxLimits exPropsObjA []
      = [⟨[PathSeg.child "a"], SchemaType.string⟩,
         ⟨[PathSeg.child "b"], SchemaType.string⟩] := by
    rw [show exPropsObjA
        = Structural.mk "object" none [("a", exLeafStr), ("b", exLeafStr)] none none
        from rfl, checkMaxLimits_object]
    simp [ownBoundFindings, limitViolation, Structural.type,
      Structural.additionalProperties, Structural.valueValidation,
      checkMaxLimitsProps, exLeafStr, checkMaxLimits_string, FieldPath.child]
  have hB : checkMaxLimits exPropsObjB []
      = [⟨[PathSeg.child "b"], SchemaType.string⟩,
         ⟨[PathSeg.child "a"], SchemaType.string⟩] := by
    rw [show exPropsObjB
        = Structural.mk "object" none [("b", exLeafStr), ("a", exLeafStr)] none none
        from rfl, checkMaxLimits_object]
    simp [ownBoundFindings, limitViolation, Structural.type,
      Structural.additionalProperties, Structural.valueValidation,
      checkMaxLimitsProps, exLeafStr, checkMaxLimits_string, FieldPath.child]
  refine ⟨List.Perm.swap _ _ _, hA, hB, ?_⟩
  rw [hA, hB]
  decide

/-- C7 (amended): the bound completeness checker returns findings in
depth-first pre-order — a node's own finding precedes everything from its
children, and an object's `additionalProperties` subtree findings precede
the property subtrees.  Sibling properties contribute in the iteration
order of the run (the order of the properties list); the Go map defines no
declaration order and its iteration order is unspecified, so choosing
another iteration order for the same map permutes the sibling
contributions while keeping the same findings. -/
theorem claim_C7 (ty : String) (items : Option Structural)
    (props : List (String × Structural)) (addl : Option (Option Structural))
    (vv : Option ValueValidation) (p : FieldPath) :
    checkMaxLimits (Structural.mk ty items props addl vv) p
      = ownBoundFindings (Structural.mk ty items props addl vv) p
        ++ childBoundFindings (Structural.mk ty items props addl vv) p
    ∧ (ty = "object" →
        childBoundFindings (Structural.mk ty items props addl vv) p
          = (match addl with
             | some (some sa) => checkMaxLimits sa p
             | _ => [])
            ++ props.flatMap (fun q => checkMaxLimits q.2 (p.child q.1)))
    ∧ (∀ props2, props.Perm props2 →
        (checkMaxLimits (Structural.mk ty items props addl vv) p).Perm
          (checkMaxLimits (Structural.mk ty items props2 addl vv) p)) := by
  refine ⟨?_, ?_, fun props2 hperm =>
    checkMaxLimits_propsPerm ty items props props2 addl vv p hperm⟩
  · by_cases ha : ty = "array"
    · subst ha
      rw [checkMaxLimits_array]
      rfl
    by_cases hs : ty = "string"
    · subst hs
      rw [checkMaxLimits_string]
      unfold childBoundFindings
      simp [Structural.type]
    by_cases ho : ty = "object"
    · subst ho
      rw [checkMaxLimits_object]
      rfl
    · rw [checkMaxLimits_other ty items props addl vv p ha hs ho]
      unfold childBoundFindings
      simp [ownBoundFindings, limitViolation_other ty items props addl vv ha hs ho,
        Structural.type, ha, hs, ho]
  · intro hty
    subst hty
    unfold childBoundFindings
    simp only [Structural.type, Structural.additionalProperties, Structural.properties]
    rw [checkMaxLimitsProps_eq_flatMap]

/-- C7 witness: `claim_C7` instantiated at concrete objects — the children
part of a one-property object in iteration order, and the permutation of
the two-property object's findings under the other iteration order. -/
theorem claim_C7_witness :
    childBoundFindings (Structural.mk "object" none [("a", exLeafStr)] none none) []
      = [⟨[PathSeg.child "a"], SchemaType.string⟩]
    ∧ (checkMaxLimits exPropsObjA []).Perm (checkMaxLimits exPropsObjB []) := by
  constructor
  · have h := (claim_C7 "object" none [("a", exLeafStr)] none none []).2.1 rfl
    rw [h]
    rw [show exLeafStr = Structural.mk "string" none [] none none from rfl]
    simp [checkMaxLimits_string, ownBoundFindings, limitViolation, Structural.type,
      Structural.valueValidation, FieldPath.child]
  · exact (claim_C7 "object" none [("a", exLeafStr), ("b", exLeafStr)] none none []).2.2
      [("b", exLeafStr), ("a", exLeafStr)] (List.Perm.swap _ _ _)

/-- C6: at every open-map object node the bound completeness checker
recurses into the `additionalProperties` value schema at the node's own
path, while the expression cost checker recurses into the same value schema
at the node's path extended by the distinct `additionalProperties` segment;
the two base paths are never equal. -/
theorem claim_C6 (compile : Structural → Except String (List CompilationResult))
    (items : Option Structural) (props : List (String × Structural))
    (sa : Structural) (vv : Option ValueValidation)
    (p : FieldPath) (i : costInfo) (results : List CompilationResult) :
    checkMaxLimits (Structural.mk "object" items props (some (some sa)) vv) p
      = ownBoundFindings (Structural.mk "object" items props (some (some sa)) vv) p
        ++ (checkMaxLimits sa p ++ checkMaxLimitsProps props p)
    ∧ (compile (Structural.mk "object" items props (some (some sa)) vv) = .ok results →
        checkExprCost compile (Structural.mk "object" items props (some (some sa)) vv) p i
          = (ruleFindings results p i
               ++ ((checkExprCostProps compile props p
                      (MultiplyByElementCost i
                        (some (Structural.mk "object" items props (some (some sa)) vv)))).1
                   ++ (checkExprCost compile sa (p.child "additionalProperties")
                        (MultiplyByElementCost i
                          (some (Structural.mk "object" items props (some (some sa)) vv)))).1),
             ruleCompileFailures results
               ++ ((checkExprCostProps compile props p
                      (MultiplyByElementCost i
                        (some (Structural.mk "object" items props (some (some sa)) vv)))).2
                   ++ (checkExprCost compile sa (p.child "additionalProperties")
                        (MultiplyByElementCost i
                          (some (Structural.mk "object" items props (some (some sa)) vv)))).2)))
    ∧ p ≠ p.child "additionalProperties" := by
  refine ⟨?_, ?_, ?_⟩
  · rw [checkMaxLimits_object]
  · intro h
    rw [checkExprCost_ok compile "object" items props (some (some sa)) vv p i results h,
      checkExprCostKids_object]
  · intro hcontra
    have hlen := congrArg List.length hcontra
    simp [FieldPath.child] at hlen

/-- An open-map object schema over a string leaf, used to instantiate
theorems. -/
def exMapNode : Structural := Structural.mk "object" none [] (some (some exLeafStr)) none

/-- C6 witness: `claim_C6` instantiated at a concrete open map under the
empty oracle. -/
theorem claim_C6_witness :
    checkExprCost exCompileNil exMapNode [] rootCostInfo
      = (ruleFindings [] [] rootCostInfo
           ++ ((checkExprCostProps exCompileNil [] []
                  (MultiplyByElementCost rootCostInfo (some exMapNode))).1
               ++ (checkExprCost exCompileNil exLeafStr
                    (FieldPath.child [] "additionalProperties")
                    (MultiplyByElementCost rootCostInfo (some exMapNode))).1),
         ruleCompileFailures []
           ++ ((checkExprCostProps exCompileNil [] []
                  (MultiplyByElementCost rootCostInfo (some exMapNode))).2
               ++ (checkExprCost exCompileNil exLeafStr
                    (FieldPath.child [] "additionalProperties")
                    (MultiplyByElementCost rootCostInfo (some exMapNode))).2))
    ∧ ([] : FieldPath) ≠ FieldPath.child [] "additionalProperties" :=
  ⟨(claim_C6 exCompileNil none [] exLeafStr none [] rootCostInfo []).2.1 rfl,
   (claim_C6 exCompileNil none [] exLeafStr none [] rootCostInfo []).2.2⟩

/-- C8: a missing child schema is never an error for the cost checker — an
array without an item schema and an object whose `additionalProperties`
carries no target schema contribute exactly their own rule findings and
compile failures, with nothing added for the absent child; and the
cardinality propagator maps an absent (nil) node to the unbounded bound
without failing. -/
theorem claim_C8 (compile : Structural → Except String (List CompilationResult))
    (items : Option Structural) (props : List (String × Structural))
    (addl : Option (Option Structural)) (vv : Option ValueValidation)
    (p : FieldPath) (i : costInfo) (results : List CompilationResult) :
    (compile (Structural.mk "array" none props addl vv) = .ok results →
      checkExprCost compile (Structural.mk "array" none props addl vv) p i
        = (ruleFindings results p i, ruleCompileFailures results))
    ∧ (compile (Structural.mk "object" items props (some none) vv) = .ok results →
      checkExprCost compile (Structural.mk "object" items props (some none) vv) p i
        = (ruleFindings results p i
             ++ (checkExprCostProps compile props p
                  (MultiplyByElementCost i
                    (some (Structural.mk "object" items props (some none) vv)))).1,
           ruleCompileFailures results
             ++ (checkExprCostProps compile props p
                  (MultiplyByElementCost i
                    (some (Structural.mk "object" items props (some none) vv)))).2))
    ∧ (compile (Structural.mk "object" items props none vv) = .ok results →
      checkExprCost compile (Structural.mk "object" items props none vv) p i
        = (ruleFindings results p i
             ++ (checkExprCostProps compile props p
                  (MultiplyByElementCost i
                    (some (Structural.mk "object" items props none vv)))).1,
           ruleCompileFailures results
             ++ (checkExprCostProps compile props p
                  (MultiplyByElementCost i
                    (some (Structural.mk "object" items props none vv)))).2))
    ∧ (∀ c : costInfo, MultiplyByElementCost c none = ⟨none⟩) := by
  refine ⟨?_, ?_, ?_, fun c => rfl⟩
  · intro h
    rw [checkExprCost_ok compile "array" none props addl vv p i results h,
      checkExprCostKids_array]
    simp [checkExprCostMissingChild]
  · intro h
    rw [checkExprCost_ok compile "object" items props (some none) vv p i results h,
      checkExprCostKids_object]
    simp
  · intro h
    rw [checkExprCost_ok compile "object" items props none vv p i results h,
      checkExprCostKids_object]
    simp

/-- C8 witness: `claim_C8` instantiated at an itemless array under the
empty oracle, and at the absent propagator node. -/
theorem claim_C8_witness :
    checkExprCost exCompileNil (Structural.mk "array" none [] none none) [] rootCostInfo
      = (ruleFindings [] [] rootCostInfo, ruleCompileFailures [])
    ∧ MultiplyByElementCost rootCostInfo none = ⟨none⟩ :=
  ⟨(claim_C8 exCompileNil none [] none none [] rootCostInfo []).1 rfl,
   (claim_C8 exCompileNil none [] none none [] rootCostInfo []).2.2.2 rootCostInfo⟩

/-- A compile oracle reporting one over-budget rule on every string node
and nothing elsewhere. -/
def exCompileRule : Structural → Except String (List CompilationResult) :=
  fun s =>
    match s.type with
    | "string" => .ok [⟨10000001, 1, none⟩]
    | _ => .ok []

/-- C9 counterexample: two runs of the cost checker on one and the same Go
schema (the same property map, iterated in the two possible orders) with
identical compiler responses return the same two `CostExceeded` findings in
two different sequences — the program's finding order is not stable across
runs, because Go randomizes map iteration. -/
theorem claim_C9_counterexample :
    exPropsObjA.properties.Perm exPropsObjB.properties
    ∧ exCompileRule exPropsObjA = exCompileRule exPropsObjB
    ∧ (CheckExprCost exCompileRule exPropsObjA).1
        = [⟨[PathSeg.child "spec", PathSeg.child "validation",
             PathSeg.child "openAPIV3Schema", PathSeg.child "properties",
             PathSeg.key "a", PathSeg.child "x-kubernetes-validations",
             PathSeg.idx 0, PathSeg.child "rule"], 10000001⟩,
           ⟨[PathSeg.child "spec", PathSeg.child "validation",
             PathSeg.child "openAPIV3Schema", PathSeg.child "properties",
             PathSeg.key "b", PathSeg.child "x-kubernetes-validations",
             PathSeg.idx 0, PathSeg.child "rule"], 10000001⟩]
    ∧ (CheckExprCost exCompileRule exPropsObjB).1
        = [⟨[PathSeg.child "spec", PathSeg.child "validation",
             PathSeg.child "openAPIV3Schema", PathSeg.child "properties",
             PathSeg.key "b", PathSeg.child "x-kubernetes-validations",
             PathSeg.idx 0, PathSeg.child "rule"], 10000001⟩,
           ⟨[PathSeg.child "spec", PathSeg.child "validation",
             PathSeg.child "openAPIV3Schema", PathSeg.child "properties",
             PathSeg.key "a", PathSeg.child "x-kubernetes-validations",
             PathSeg.idx 0, PathSeg.child "rule"], 10000001⟩]
    ∧ (CheckExprCost exCompileRule exPropsObjA).1
        ≠ (CheckExprCost exCompileRule exPropsObjB).1 := by
  have hleaf : ∀ P : FieldPath,
      checkExprCost exCompileRule exLeafStr P ⟨some 1⟩
        = ([⟨((P.child "x-kubernetes-validations").idx 0).child "rule", 10000001⟩],
           []) := by
    intro P
    rw [show exLeafStr = Structural.mk "string" none [] none none from rfl,
      checkExprCost_ok exCompileRule "string" none [] none none P ⟨some 1⟩
        [⟨10000001, 1, none⟩] rfl,
      checkExprCostKids_other exCompileRule "string" none [] none none P ⟨some 1⟩
        (by decide) (by decide)]
    simp [ruleFindings, ruleCompileFailures, getExpressionCost,
      costInfo.maxCardinality, multiplyWithOverflowGuard, maxUint,
      staticEstimatedCostLimit]
  have hA : (CheckExprCost exCompileRule exPropsObjA).1
      = [⟨[PathSeg.child "spec", PathSeg.child "validation",
           PathSeg.child "openAPIV3Schema", PathSeg.child "properties",
           PathSeg.key "a", PathSeg.child "x-kubernetes-validations",
           PathSeg.idx 0, PathSeg.child "rule"], 10000001⟩,
         ⟨[PathSeg.child "spec", PathSeg.child "validation",
           PathSeg.child "openAPIV3Schema", PathSeg.child "properties",
           PathSeg.key "b", PathSeg.child "x-kubernetes-validations",
           PathSeg.idx 0, PathSeg.child "rule"], 10000001⟩] := by
    unfold CheckExprCost
    rw [show exPropsObjA
        = Structural.mk "object" none [("a", exLeafStr), ("b", exLeafStr)] none none
        from rfl,
      checkExprCost_ok exCompileRule "object" none [("a", exLeafStr), ("b", exLeafStr)]
        none none _ rootCostInfo [] rfl,
      checkExprCostKids_object]
    rw [show MultiplyByElementCost rootCostInfo
        (some (Structural.mk "object" none [("a", exLeafStr), ("b", exLeafStr)] none none))
        = ⟨some 1⟩ from rfl]
    simp [checkExprCostProps_fst, hleaf, ruleFindings, FieldPath.child,
      FieldPath.key, FieldPath.idx]
  have hB : (CheckExprCost exCompileRule exPropsObjB).1
      = [⟨[PathSeg.child "spec", PathSeg.child "validation",
           PathSeg.child "openAPIV3Schema", PathSeg.child "properties",
           PathSeg.key "b", PathSeg.child "x-kubernetes-validations",
           PathSeg.idx 0, PathSeg.child "rule"], 10000001⟩,
         ⟨[PathSeg.child "spec", PathSeg.child "validation",
           PathSeg.child "openAPIV3Schema", PathSeg.child "properties",
           PathSeg.key "a", PathSeg.child "x-kubernetes-validations",
           PathSeg.idx 0, PathSeg.child "rule"], 10000001⟩] := by
    unfold CheckExprCost
    rw [show exPropsObjB
        = Structural.mk "object" none [("b", exLeafStr), ("a", exLeafStr)] none none
        from rfl,
      checkExprCost_ok exCompileRule "object" none [("b", exLeafStr), ("a", exLeafStr)]
        none none _ rootCostInfo [] rfl,
      checkExprCostKids_object]
    rw [show MultiplyByElementCost rootCostInfo
        (some (Structural.mk "object" none [("b", exLeafStr), ("a", exLeafStr)] none none))
        = ⟨some 1⟩ from rfl]
    simp [checkExprCostProps_fst, hleaf, ruleFindings, FieldPath.child,
      FieldPath.key, FieldPath.idx]
  refine ⟨List.Perm.swap _ _ _, rfl, hA, hB, ?_⟩
  rw [hA, hB]
  decide

/-- C9 (amended): both checkers are deterministic functions of the schema
tree, the compiler's responses, and the per-run iteration order of each
properties map: re-running with everything fixed returns the identical
sequence, and changing a node's iteration order — legitimate for the same
Go map — permutes the outputs without changing the findings themselves, so
the set of findings is run-independent but the sibling order is not. -/
theorem claim_C9 (compile : Structural → Except String (List CompilationResult)) :
    (∀ s : Structural,
      CheckMaxLimits s = CheckMaxLimits s ∧ CheckExprCost compile s = CheckExprCost compile s)
    ∧ (∀ (ty : String) (items : Option Structural)
        (props props2 : List (String × Structural)) (addl : Option (Option Structural))
        (vv : Option ValueValidation) (p : FieldPath), props.Perm props2 →
        (checkMaxLimits (Structural.mk ty items props addl vv) p).Perm
          (checkMaxLimits (Structural.mk ty items props2 addl vv) p))
    ∧ (∀ (ty : String) (items : Option Structural)
        (props props2 : List (String × Structural)) (addl : Option (Option Structural))
        (vv : Option ValueValidation) (p : FieldPath) (i : costInfo), props.Perm props2 →
        compile (Structural.mk ty items props addl vv)
          = compile (Structural.mk ty items props2 addl vv) →
        ((checkExprCost compile (Structural.mk ty items props addl vv) p i).1).Perm
            ((checkExprCost compile (Structural.mk ty items props2 addl vv) p i).1)
          ∧ ((checkExprCost compile (Structural.mk ty items props addl vv) p i).2).Perm
            ((checkExprCost compile (Structural.mk ty items props2 addl vv) p i).2)) :=
  ⟨fun _ => ⟨rfl, rfl⟩,
   fun ty items props props2 addl vv p hperm =>
     checkMaxLimits_propsPerm ty items props props2 addl vv p hperm,
   fun ty items props props2 addl vv p i hperm hc =>
     checkExprCost_propsPerm compile ty items props props2 addl vv p i hperm hc⟩

/-- C9 witness: `claim_C9` instantiated at the two iteration orders of the
concrete two-property map, for both checkers. -/
theorem claim_C9_witness :
    (checkMaxLimits exPropsObjA []).Perm (checkMaxLimits exPropsObjB [])
    ∧ ((CheckExprCost exCompileRule exPropsObjA).1).Perm
        ((CheckExprCost exCompileRule exPropsObjB).1) :=
  ⟨(claim_C9 exCompileRule).2.1 "object" none
      [("a", exLeafStr), ("b", exLeafStr)] [("b", exLeafStr), ("a", exLeafStr)]
      none none [] (List.Perm.swap _ _ _),
   ((claim_C9 exCompileRule).2.2 "object" none
      [("a", exLeafStr), ("b", exLeafStr)] [("b", exLeafStr), ("a", exLeafStr)]
      none none
      [PathSeg.child "spec", PathSeg.child "validation", PathSeg.child "openAPIV3Schema"]
      rootCostInfo (List.Perm.swap _ _ _) rfl).1⟩

/-- A compile oracle whose per-rule result for a string node carries both a
compilation error and a base cost above the budget. -/
def exCompileFail : Structural → Except String (List CompilationResult) :=
  fun s =>
    match s.type with
    | "string" => .ok [⟨10000001, 1, some "boom"⟩]
    | _ => .ok []

/-- C1 counterexample: on a node whose single rule fails to compile,
`CheckExprCost` records the bare compiler error — with no path and no rule
index attached — and still evaluates the rule's cost, emitting a
`CostExceeded` finding for the very rule whose compilation failed; so cost
evaluation is not skipped for a failed rule. -/
theorem claim_C1_counterexample :
    CheckExprCost exCompileFail exLeafStr
      = ([⟨[PathSeg.child "spec", PathSeg.child "validation",
            PathSeg.child "openAPIV3Schema", PathSeg.child "x-kubernetes-validations",
            PathSeg.idx 0, PathSeg.child "rule"], 10000001⟩],
         ["boom"]) := by
  unfold CheckExprCost
  rw [show exLeafStr = Structural.mk "string" none [] none none from rfl,
    checkExprCost_ok exCompileFail "string" none [] none none _ rootCostInfo
      [⟨10000001, 1, some "boom"⟩] rfl,
    checkExprCostKids_other exCompileFail "string" none [] none none _ rootCostInfo
      (by decide) (by decide)]
  simp [ruleFindings, ruleCompileFailures, getExpressionCost, rootCostInfo,
    multiplyWithOverflowGuard, maxUint, staticEstimatedCostLimit, FieldPath.child,
    FieldPath.idx, costInfo.maxCardinality]

/-- C1 (amended): for every node whose node-level compile call returns
per-rule results, `checkExprCost` records exactly one compile-failure entry
per failed rule, in rule order, preserving the compiler's error but
attaching neither path nor rule index; cost evaluation is not skipped for
failed rules — every result, failed or not, yields a `CostExceeded` finding
exactly when its scaled cost exceeds the budget; and the traversal
continues into the node's children regardless of per-rule failures. -/
theorem claim_C1 (compile : Structural → Except String (List CompilationResult))
    (ty : String) (items : Option Structural) (props : List (String × Structural))
    (addl : Option (Option Structural)) (vv : Option ValueValidation)
    (p : FieldPath) (i : costInfo) (results : List CompilationResult)
    (h : compile (Structural.mk ty items props addl vv) = .ok results) :
    checkExprCost compile (Structural.mk ty items props addl vv) p i
      = (ruleFindings results p i
           ++ (checkExprCostKids compile (Structural.mk ty items props addl vv) p i).1,
         ruleCompileFailures results
           ++ (checkExprCostKids compile (Structural.mk ty items props addl vv) p i).2)
    ∧ ruleCompileFailures results = results.filterMap (fun r => r.err)
    ∧ ruleFindings results p i
        = results.enum.filterMap (fun x =>
            if getExpressionCost x.2 i > staticEstimatedCostLimit then
              some ⟨((p.child "x-kubernetes-validations").idx x.1).child "rule",
                    getExpressionCost x.2 i⟩
            else none) :=
  ⟨checkExprCost_ok compile ty items props addl vv p i results h, rfl, rfl⟩

/-- C1 witness: `claim_C1` instantiated at the failing-oracle string leaf. -/
theorem claim_C1_witness :
    checkExprCost exCompileFail exLeafStr [] rootCostInfo
      = (ruleFindings [⟨10000001, 1, some "boom"⟩] [] rootCostInfo
           ++ (checkExprCostKids exCompileFail exLeafStr [] rootCostInfo).1,
         ruleCompileFailures [⟨10000001, 1, some "boom"⟩]
           ++ (checkExprCostKids exCompileFail exLeafStr [] rootCostInfo).2) :=
  (claim_C1 exCompileFail "string" none [] none none [] rootCostInfo
    [⟨10000001, 1, some "boom"⟩] rfl).1

/-- Multiplying any base cost by a zero cardinality gives zero under the
overflow guard. -/
lemma multiplyWithOverflowGuard_zero_right (c : Nat) :
    multiplyWithOverflowGuard c 0 = 0 := by
  unfold multiplyWithOverflowGuard
  split
  · rfl
  split
  · rename_i h hlt
    exact absurd hlt (Nat.not_lt_zero _)
  · simp

/-- Children dispatch of the cost checker at an `array` node with an item
schema, fully reduced. -/
lemma checkExprCostKids_array_some (compile : Structural → Except String (List CompilationResult))
    (si : Structural) (props : List (String × Structural))
    (addl : Option (Option Structural)) (vv : Option ValueValidation)
    (p : FieldPath) (i : costInfo) :
    checkExprCostKids compile (Structural.mk "array" (some si) props addl vv) p i
      = checkExprCost compile si (p.child "items")
          (MultiplyByElementCost i
            (some (Structural.mk "array" (some si) props addl vv))) := rfl

/-- An array schema with `maxItems = -1` whose items are the unbounded
array `exUnboundedArray`. -/
def exNegArray : Structural :=
  Structural.mk "array" (some exUnboundedArray) [] none (some ⟨some (-1), none, none⟩)

/-- A compile oracle reporting one cheap rule with a huge intrinsic
cardinality on every string node. -/
def exCompileBig : Structural → Except String (List CompilationResult) :=
  fun s =>
    match s.type with
    | "string" => .ok [⟨2, 10000000, none⟩]
    | _ => .ok []

/-- C10 counterexample: under a node with negative `maxItems` the extracted
factor is indeed 0, but a grandchild below an intermediate unbounded array
is propagated the unbounded bound — not 0 — and its rule produces a
`CostExceeded` finding, so descendants of a clamped node are not all
cost-free. -/
theorem claim_C10_counterexample :
    extractMaxElements exNegArray = some 0
    ∧ (CheckExprCost exCompileBig exNegArray).1
        = [⟨[PathSeg.child "spec", PathSeg.child "validation",
             PathSeg.child "openAPIV3Schema", PathSeg.child "items",
             PathSeg.child "items", PathSeg.child "x-kubernetes-validations",
             PathSeg.idx 0, PathSeg.child "rule"], 20000000⟩]
    ∧ (MultiplyByElementCost ⟨some 0⟩ (some exUnboundedArray)).maxCardinality = none := by
  refine ⟨rfl, ?_, rfl⟩
  unfold CheckExprCost
  rw [show exNegArray
      = Structural.mk "array" (some exUnboundedArray) [] none
          (some ⟨some (-1), none, none⟩) from rfl,
    checkExprCost_ok exCompileBig "array" (some exUnboundedArray) [] none
      (some ⟨some (-1), none, none⟩) _ rootCostInfo [] rfl,
    checkExprCostKids_array_some,
    show exUnboundedArray = Structural.mk "array" (some exLeafStr) [] none none from rfl,
    checkExprCost_ok exCompileBig "array" (some exLeafStr) [] none none _ _ [] rfl,
    checkExprCostKids_array_some,
    show exLeafStr = Structural.mk "string" none [] none none from rfl,
    checkExprCost_ok exCompileBig "string" none [] none none _ _
      [⟨2, 10000000, none⟩] rfl,
    checkExprCostKids_other exCompileBig "string" none [] none none _ _
      (by decide) (by decide)]
  simp [ruleFindings, ruleCompileFailures, getExpressionCost, rootCostInfo,
    MultiplyByElementCost, extractMaxElements, Structural.type,
    Structural.valueValidation, Structural.additionalProperties, zeroIfNegative,
    multiplyWithOverflowGuard, maxUint, staticEstimatedCostLimit, FieldPath.child,
    FieldPath.idx, costInfo.maxCardinality]

/-- C10 (amended): a negative declared `maxItems` or `maxProperties` is
clamped — the extracted fan-out factor is 0, not rejected and not
unbounded; under a concrete incoming bound a zero factor propagates the
bound 0 to the children; a zero bound stays 0 across any child whose own
factor is concrete; and at a node whose propagated bound is 0 no rule can
produce a `CostExceeded` finding.  (The zero bound does not survive an
intermediate node with an unbounded factor, which resets propagation to
unbounded.) -/
theorem claim_C10 :
    (∀ items props addl (mp ml : Option Int) (m : Int), m < 0 →
        extractMaxElements (Structural.mk "array" items props addl (some ⟨some m, mp, ml⟩))
          = some 0)
    ∧ (∀ items props a (mi ml : Option Int) (m : Int), m < 0 →
        extractMaxElements
            (Structural.mk "object" items props (some a) (some ⟨mi, some m, ml⟩))
          = some 0)
    ∧ (∀ (i : costInfo) (s : Structural), extractMaxElements s = some 0 →
        ∀ c, i.maxCardinality = some c → MultiplyByElementCost i (some s) = ⟨some 0⟩)
    ∧ (∀ s : Structural, (∃ k, extractMaxElements s = some k) →
        MultiplyByElementCost ⟨some 0⟩ (some s) = ⟨some 0⟩)
    ∧ (∀ results p, ruleFindings results p ⟨some 0⟩ = []) := by
  refine ⟨?_, ?_, ?_, ?_, ?_⟩
  · intro items props addl mp ml m hm
    unfold extractMaxElements
    simp [Structural.type, Structural.valueValidation, zeroIfNegative, hm]
  · intro items props a mi ml m hm
    unfold extractMaxElements
    simp [Structural.type, Structural.valueValidation, Structural.additionalProperties,
      zeroIfNegative, hm]
  · intro i s hs c hc
    obtain ⟨mc⟩ := i
    simp only [costInfo.maxCardinality] at hc
    subst hc
    simp [MultiplyByElementCost, hs, multiplyWithOverflowGuard_zero_right]
  · intro s hk
    obtain ⟨k, hk⟩ := hk
    simp [MultiplyByElementCost, hk, multiplyWithOverflowGuard]
  · intro results p
    unfold ruleFindings
    refine List.filterMap_eq_nil_iff.mpr ?_
    intro x hx
    simp [getExpressionCost, costInfo.maxCardinality,
      multiplyWithOverflowGuard_zero_right, staticEstimatedCostLimit]

/-- C10 witness: `claim_C10` instantiated at a concrete negative bound. -/
theorem claim_C10_witness :
    extractMaxElements (Structural.mk "array" none [] none (some ⟨some (-3), none, none⟩))
      = some 0
    ∧ MultiplyByElementCost ⟨some 4⟩
        (some (Structural.mk "array" none [] none (some ⟨some (-3), none, none⟩)))
        = ⟨some 0⟩
    ∧ ruleFindings [⟨9, 9, none⟩] [] ⟨some 0⟩ = [] :=
  ⟨claim_C10.1 none [] none none none (-3) (by decide),
   claim_C10.2.2.1 ⟨some 4⟩ _
     (claim_C10.1 none [] none none none (-3) (by decide)) 4 rfl,
   claim_C10.2.2.2.2 [⟨9, 9, none⟩] []⟩
